import Mathlib

/-!
Shallow embedding of the keyword-match / dedup / dispatch engine of the
Reddit-to-Telegram monitor bot (src/app.py), together with theorems that
settle the spec's claims about it.

Python strings are modelled as lists of Unicode code points (List Nat);
the ASCII fragment relevant to the matcher is modelled exactly.
-/

namespace app

/-- A Python string, modelled as its list of Unicode code points. -/
abbrev Text := List Nat

/-- Convert a Lean string literal to the code-point model, for concrete instances. -/
def txt (s : String) : Text := s.data.map Char.toNat

/-- Python str.lower() on one ASCII code point: maps A-Z to a-z, leaves the rest. -/
def lowerChar (c : Nat) : Nat := if 65 ≤ c ∧ c ≤ 90 then c + 32 else c

/-- Python str.lower() over a whole string. -/
def lowerText (t : Text) : Text := t.map lowerChar

/-- Python regex word-character class (ASCII fragment): [A-Za-z0-9_]. -/
def isWordChar (c : Nat) : Bool :=
  (65 ≤ c && c ≤ 90) || (97 ≤ c && c ≤ 122) || (48 ≤ c && c ≤ 57) || c == 95

/-- Whether position k of t holds a word character; out of range counts as non-word
(32 is the code point of a space). -/
def wordAt (t : Text) (k : Nat) : Bool := isWordChar (t.getD k 32)

/-- Whether the character just before position k is a word character (the left edge
of the string counts as non-word). -/
def prevWordAt (t : Text) (k : Nat) : Bool := decide (0 < k) && wordAt t (k - 1)

/-- Python regex word boundary: position k is a boundary iff exactly one of the two
adjacent positions holds a word character. -/
def boundaryAt (t : Text) (k : Nat) : Bool := Bool.xor (prevWordAt t k) (wordAt t k)

/-- The phrase p occurs literally (contiguously) in t starting at position i. -/
def occursAt (t p : Text) (i : Nat) : Bool := (t.drop i).take p.length == p

/-- One candidate start position of the regex search for the pattern formed by a word
boundary, the escaped phrase, and a word boundary. -/
def wbMatchAt (t p : Text) (i : Nat) : Bool :=
  occursAt t p i && boundaryAt t i && boundaryAt t (i + p.length)

/-- Python re.search of that pattern in t: some start position matches. -/
def wbSearch (t p : Text) : Bool := (List.range (t.length + 1)).any (wbMatchAt t p)

/-- contains_phrase from src/app.py: empty text or phrase gives False, otherwise the
regex search for the word-bounded lowercased phrase inside the lowercased text. -/
def contains_phrase (text phrase : Text) : Bool :=
  if text.isEmpty || phrase.isEmpty then false
  else wbSearch (lowerText text) (lowerText phrase)

/-- contains_phrase_case_sensitive from src/app.py: as contains_phrase but with no
lowercasing of either side. -/
def contains_phrase_case_sensitive (text phrase : Text) : Bool :=
  if text.isEmpty || phrase.isEmpty then false
  else wbSearch text phrase

/-- Following the spec's words: the occurrence of p at position i of t is bounded on
both sides by a non-word character or a text edge. -/
def specDelimAt (t p : Text) (i : Nat) : Bool :=
  occursAt t p i && !(prevWordAt t i) && !(wordAt t (i + p.length))

/-- Following the spec's words: p occurs contiguously somewhere in t bounded by
non-word-character boundaries on both sides. -/
def specSearch (t p : Text) : Bool := (List.range (t.length + 1)).any (specDelimAt t p)

/-- Following the spec's words for matches(T,P,false): the lowercase phrase is a
boundary-delimited contiguous run in the lowercase text; empty text or phrase is false. -/
def spec_contains_phrase (text phrase : Text) : Bool :=
  if text.isEmpty || phrase.isEmpty then false
  else specSearch (lowerText text) (lowerText phrase)

/-- The phrase is nonempty and begins and ends with word characters. -/
def wordEdged (p : Text) : Bool :=
  !p.isEmpty && isWordChar (p.getD 0 32) && isWordChar (p.getD (p.length - 1) 32)

/-! ## Sets of strings

Python set membership, addition, removal and discard, modelled on lists of Text.
Only membership matters for these operations; iteration order is modelled
explicitly where the code depends on it (see the trim operations). -/

/-- Python set.add: no-op when the element is already present. -/
def set_add (s : List Text) (x : Text) : List Text := if s.contains x then s else s ++ [x]

/-- Python set.remove / set.discard on a duplicate-free list: drop the element. -/
def set_remove (s : List Text) (x : Text) : List Text := s.filter (fun y => !(y == x))

/-! ## Group records

A configured destination group from src/app.py (the groups dict values).
The platform, channel_id and workspace_id fields are not used by any
verified operation and are omitted. -/

structure Group where
  name : Text
  keywords : List Text
  case_sensitive_keywords : List Text
  subreddits : List Text
  subreddit_blacklist : List Text
  enabled : Bool
deriving DecidableEq, Repr

/-- A streamed Reddit comment as the engine sees it: id, subreddit, and the body
when the attribute is present. -/
structure RComment where
  id : Text
  subreddit : Text
  body : Option Text
deriving DecidableEq, Repr

/-- A searched Reddit post as the engine sees it: id, subreddit, title, and the
selftext when the attribute is present. -/
structure RPost where
  id : Text
  subreddit : Text
  title : Text
  selftext : Option Text
deriving DecidableEq, Repr

/-! ## Producer pipeline (stream_comments and search_posts) -/

/-- The two skip conditions of stream_comments for a group's subreddit filters:
skip when a non-empty allow list misses the subreddit, or when a non-empty
blacklist contains it. -/
def stream_skips_subreddit (g : Group) (sr : Text) : Bool :=
  (!g.subreddits.isEmpty && !g.subreddits.contains sr)
    || (!g.subreddit_blacklist.isEmpty && g.subreddit_blacklist.contains sr)

/-- The keyword scan of stream_comments over one comment body: the case-insensitive
keywords are tried first and the scan stops at the first hit; only if none hits are
the case-sensitive keywords tried, again stopping at the first hit. -/
def stream_match_body (g : Group) (b : Text) : Option Text :=
  match g.keywords.find? (fun kw => contains_phrase b kw) with
  | some kw => some kw
  | none => g.case_sensitive_keywords.find? (fun kw => contains_phrase_case_sensitive b kw)

/-- The keyword scan of stream_comments for one comment: a comment without a body
attribute matches nothing. -/
def stream_match (g : Group) (c : RComment) : Option Text :=
  match c.body with
  | none => none
  | some b => stream_match_body g b

/-- The body of stream_comments for one (group, comment) pair: skip disabled groups,
skip already-processed ids, skip ineligible subreddits, then scan keywords; on a hit
enqueue one envelope (the returned keyword) and mark the id processed.
Returns the group's new processed-items set and the matched keyword, if any. -/
def process_comment_for_group (g : Group) (processed : List Text) (c : RComment) :
    List Text × Option Text :=
  if !g.enabled then (processed, none)
  else if processed.contains c.id then (processed, none)
  else if stream_skips_subreddit g (lowerText c.subreddit) then (processed, none)
  else match stream_match g c with
    | some kw => (set_add processed c.id, some kw)
    | none => (processed, none)

/-- The per-post body of search_posts for one (group, post, keyword) triple: skip
already-processed ids, compute title and body matches (an absent or empty selftext
never matches), enforce the allow list and the blacklist on the post's lowercased
subreddit, then on a title or body match enqueue one envelope and mark the id.
Returns the new processed-items set and whether an envelope was enqueued. -/
def search_post_step (g : Group) (processed : List Text) (p : RPost) (kw : Text)
    (case_sensitive : Bool) : List Text × Bool :=
  if processed.contains p.id then (processed, false)
  else
    let mf := if case_sensitive then contains_phrase_case_sensitive else contains_phrase
    let title_match := mf p.title kw
    let body_match := match p.selftext with
      | some b => if b.isEmpty then false else mf b kw
      | none => false
    let post_sr := lowerText p.subreddit
    if !g.subreddits.isEmpty && !g.subreddits.contains post_sr then (processed, false)
    else if !g.subreddit_blacklist.isEmpty && g.subreddit_blacklist.contains post_sr then
      (processed, false)
    else if title_match || body_match then (set_add processed p.id, true)
    else (processed, false)

/-! ## Dedup trimming (save_data and trim_processed_items_in_memory)

The code trims with processed = set(list(processed)[-low:]) once len(processed)
exceeds a high-water mark. list(processed) enumerates a Python set in an
unspecified, hash-dependent order; the enumeration the interpreter produced is
therefore an explicit input here, as a list of the set's members. -/

/-- The common trim pattern: when the enumeration is longer than the high-water mark,
keep its last low-water-mark elements (a Python [-low:] slice), else keep everything. -/
def trim_processed (high low : Nat) (enum : List Text) : List Text :=
  if high < enum.length then enum.drop (enum.length - low) else enum

/-- The trim applied to each group's set inside save_data (high 10000, low 5000). -/
def save_data_trim (enum : List Text) : List Text := trim_processed 10000 5000 enum

/-- The trim applied by trim_processed_items_in_memory (high 15000, low 7500). -/
def trim_in_memory (enum : List Text) : List Text := trim_processed 15000 7500 enum

/-! ## Notification queue and dispatcher (notification_processor) -/

/-- A queued notification: the destination group id and the rendered message,
exactly the pair appended by send_notification_to_group. -/
abbrev Envelope := Int × Text

/-- The dispatcher state: the pending_notifications queue, plus a log of the
envelopes delivered so far (in delivery order) for specification purposes. -/
structure DispatchState where
  queue : List Envelope
  sent : List Envelope
deriving DecidableEq, Repr

/-- One iteration of the notification_processor loop, parametrised by the outcome
of _send_platform_message (true means the send returned, false means it raised):
pop the head envelope and send it; on success it is delivered, on failure it is
re-inserted at the head of the queue unchanged; an empty queue just sleeps. -/
def processor_step (send : Int → Text → Bool) (s : DispatchState) : DispatchState :=
  match s.queue with
  | [] => s
  | (gid, msg) :: rest =>
    if send gid msg then { queue := rest, sent := s.sent ++ [(gid, msg)] }
    else { queue := (gid, msg) :: rest, sent := s.sent }

/-- n iterations of the notification_processor loop. -/
def processor_iter (send : Int → Text → Bool) : Nat → DispatchState → DispatchState
  | 0, s => s
  | n + 1, s => processor_iter send n (processor_step send s)

/-! ## The Telegram sender (_send_telegram_message) -/

/-- One HTTP response of the Telegram sendMessage call: its status code and, when
status 429 carries parameters.retry_after, that value. -/
structure TgResponse where
  status : Nat
  retryAfterParam : Option Nat
deriving DecidableEq, Repr

/-- The observable behaviour of one _send_telegram_message call: the status codes of
the HTTP posts it performed in order, the sleep durations it performed in order, and
whether it returned normally (false means it raised). -/
structure SendTrace where
  posts : List Nat
  sleeps : List Nat
  returned : Bool
deriving DecidableEq, Repr

/-- The message is physically delivered each time a post returns status 200. -/
def deliveries (tr : SendTrace) : Nat := tr.posts.count 200

/-- _send_telegram_message from src/app.py, over the response r1 of its first post
and the response r2 of the retry post (consulted only after a 429): on 429 it sleeps
for retry_after (defaulting to 60 when absent) and posts once more, raising unless
the retry returns 200; on any other non-200 status it raises immediately. -/
def send_telegram_message (r1 r2 : TgResponse) : SendTrace :=
  if r1.status == 429 then
    let retry_after := r1.retryAfterParam.getD 60
    if r2.status == 200 then
      { posts := [r1.status, r2.status], sleeps := [retry_after], returned := true }
    else
      { posts := [r1.status, r2.status], sleeps := [retry_after], returned := false }
  else if r1.status == 200 then { posts := [r1.status], sleeps := [], returned := true }
  else { posts := [r1.status], sleeps := [], returned := false }

/-! ## Registry mutations on one group (handle_message and addkeyword) -/

/-- Python str.isspace for the ASCII fragment: space and the control characters
tab, newline, vertical tab, form feed, carriage return. -/
def isSpaceChar (c : Nat) : Bool := c == 32 || (9 ≤ c && c ≤ 13)

/-- Python str.strip(): remove leading and trailing whitespace. -/
def stripText (t : Text) : Text :=
  ((t.dropWhile isSpaceChar).reverse.dropWhile isSpaceChar).reverse

/-- The keyword parsing shared by the case-insensitive add and remove handlers:
split the input on commas, strip each piece, keep the non-empty ones, lowercased. -/
def parse_keywords_ci (t : Text) : List Text :=
  (t.splitOn 44).filterMap fun kw =>
    let s := stripText kw
    if s.isEmpty then none else some (lowerText s)

/-- The keyword parsing of the case-sensitive handlers: the same split and strip,
with the original case kept. -/
def parse_keywords_cs (t : Text) : List Text :=
  (t.splitOn 44).filterMap fun kw =>
    let s := stripText kw
    if s.isEmpty then none else some s

/-- The add loop of the case-insensitive keyword handlers (menu handler and the
/addkeyword command): each parsed keyword already present is skipped, the others
are added to the group's keyword set. -/
def add_keywords_ci (g : Group) (input : Text) : Group :=
  { g with keywords := (parse_keywords_ci input).foldl set_add g.keywords }

/-- One step of the keyword remove loops: a keyword present in the set is removed,
one that is missing is reported and leaves the set unchanged. -/
def set_remove_if_present (s : List Text) (kw : Text) : List Text :=
  if s.contains kw then set_remove s kw else s

/-- The remove loop of the case-insensitive keyword handlers: each parsed (hence
lowercased) keyword present in the set is removed, the others are reported missing. -/
def remove_keywords_ci (g : Group) (input : Text) : Group :=
  { g with keywords := (parse_keywords_ci input).foldl set_remove_if_present g.keywords }

/-- The add loop of the case-sensitive keyword handler: original case kept. -/
def add_keywords_cs (g : Group) (input : Text) : Group :=
  { g with case_sensitive_keywords :=
      (parse_keywords_cs input).foldl set_add g.case_sensitive_keywords }

/-- One step of the blacklist add handler: a subreddit already blacklisted is
skipped; otherwise it is added to the blacklist and discarded from the allow list
when present there. -/
def add_deny_one (g : Group) (s : Text) : Group :=
  if g.subreddit_blacklist.contains s then g
  else
    { g with
      subreddit_blacklist := set_add g.subreddit_blacklist s,
      subreddits :=
        if g.subreddits.contains s then set_remove g.subreddits s else g.subreddits }

/-- The blacklist add handler over its parsed list of subreddit names. -/
def add_deny (g : Group) (subs : List Text) : Group := subs.foldl add_deny_one g

/-- One step of the allow-list add handler: a subreddit already present is skipped;
otherwise it is added to the allow list. The blacklist is not consulted. -/
def add_allow_one (g : Group) (s : Text) : Group :=
  if g.subreddits.contains s then g
  else { g with subreddits := set_add g.subreddits s }

/-! ## Group removal (removegroup) -/

/-- The reply of the removegroup command body. -/
inductive RemoveResult where
  | rejected_owner
  | not_found
  | removed (name : Text)
deriving DecidableEq, Repr

/-- The registry state removegroup acts on: the groups dict and the per-group
processed-items dict, both as association lists keyed by the group chat id. -/
structure BotState where
  groups : List (Int × Group)
  processed_items : List (Int × List Text)
deriving DecidableEq, Repr

/-- Dict lookup for the association-list model. -/
def BotState.findGroup (st : BotState) (gid : Int) : Option Group :=
  (st.groups.find? fun p => p.1 == gid).map (fun p => p.2)

/-- The removegroup command body from src/app.py: removing the owner control group
is refused before any mutation; an unknown group id is refused; otherwise the group
and its processed-items entry are deleted. -/
def removegroup (owner : Int) (st : BotState) (gid : Int) : BotState × RemoveResult :=
  if gid == owner then (st, RemoveResult.rejected_owner)
  else
    match st.findGroup gid with
    | none => (st, RemoveResult.not_found)
    | some g =>
      ({ groups := st.groups.filter fun p => !(p.1 == gid),
         processed_items := st.processed_items.filter fun p => !(p.1 == gid) },
       RemoveResult.removed g.name)

/-! ## Helper lemmas about the set model -/

theorem contains_true_iff {s : List Text} {x : Text} : s.contains x = true ↔ x ∈ s := by
  simp [List.contains]

theorem contains_false_iff {s : List Text} {x : Text} : s.contains x = false ↔ x ∉ s := by
  simp [List.contains]

theorem mem_set_add {s : List Text} {x y : Text} : y ∈ set_add s x ↔ y ∈ s ∨ y = x := by
  unfold set_add
  split
  · next h =>
    have hx : x ∈ s := contains_true_iff.mp h
    constructor
    · exact fun hy => Or.inl hy
    · rintro (hy | rfl)
      · exact hy
      · exact hx
  · simp

theorem mem_set_remove {s : List Text} {x y : Text} :
    y ∈ set_remove s x ↔ y ∈ s ∧ y ≠ x := by
  simp [set_remove]

theorem contains_set_add_self (s : List Text) (x : Text) : (set_add s x).contains x = true :=
  contains_true_iff.mpr (mem_set_add.mpr (Or.inr rfl))

/-! ## C1: dispatcher retry behaviour -/

/-- C1 (amended): on a send failure the notification processor re-inserts the failed
envelope at the head of the queue with no attempt counter and no retry bound, so with
a sender that always fails the queue and the delivery log never change, however many
iterations run: the failing envelope is never dropped and every envelope behind it is
never sent. -/
theorem notification_processor_requeues_failed_head_forever
    (send : Int → Text → Bool) (h : ∀ g m, send g m = false)
    (n : Nat) (q l : List Envelope) :
    processor_iter send n ⟨q, l⟩ = ⟨q, l⟩ := by
  induction n with
  | zero => rfl
  | succ k ih =>
    have hstep : processor_step send ⟨q, l⟩ = ⟨q, l⟩ := by
      cases q with
      | nil => rfl
      | cons e rest =>
        cases e with
        | mk g m => simp [processor_step, h g m]
    show processor_iter send k (processor_step send ⟨q, l⟩) = ⟨q, l⟩
    rw [hstep]
    exact ih

/-- C1 witness: the amended theorem applied to the constantly failing sender on a
one-envelope queue, for three iterations. -/
theorem notification_processor_requeue_witness :
    processor_iter (fun _ _ => false) 3 ⟨[(1, txt "a")], []⟩ = ⟨[(1, txt "a")], []⟩ :=
  notification_processor_requeues_failed_head_forever _ (fun _ _ => rfl) 3 _ _

/-- C1 counterexample: a sender that always fails for group 1 and would succeed for
group 2. After 50 dispatcher iterations the envelope for group 1 has been attempted
50 times, is still at the head of the queue rather than dropped, and the envelope
for group 2 queued behind it has not been sent: there is no retry maximum after
which the poisoned envelope is dropped, and the queue stalls indefinitely. -/
theorem notification_processor_no_retry_bound_counterexample :
    processor_iter (fun g _ => g != 1) 50 ⟨[(1, txt "a"), (2, txt "b")], []⟩
      = ⟨[(1, txt "a"), (2, txt "b")], []⟩
    ∧ (processor_iter (fun g _ => g != 1) 50 ⟨[(1, txt "a"), (2, txt "b")], []⟩).sent = [] := by
  constructor
  · decide
  · decide

/-! ## C6: removegroup protects the owner group -/

/-- C6: removegroup refuses to remove the owner control group and leaves the whole
state (groups and every group's processed-items entries) unchanged; an unknown group
id is likewise refused without mutation; removal succeeds exactly for existing
non-owner groups, and then the group and its processed-items entry are gone. -/
theorem removegroup_owner_protected :
    (∀ owner st, removegroup owner st owner = (st, RemoveResult.rejected_owner))
    ∧ (∀ owner st gid, gid ≠ owner → st.findGroup gid = none →
        removegroup owner st gid = (st, RemoveResult.not_found))
    ∧ (∀ owner st gid, (∃ n, (removegroup owner st gid).2 = RemoveResult.removed n) ↔
        (gid ≠ owner ∧ (st.findGroup gid).isSome = true))
    ∧ (∀ owner st gid g, gid ≠ owner → st.findGroup gid = some g →
        (removegroup owner st gid).2 = RemoveResult.removed g.name
        ∧ ((removegroup owner st gid).1.findGroup gid = none)) := by
  refine ⟨?_, ?_, ?_, ?_⟩
  · intro owner st
    simp [removegroup]
  · intro owner st gid hne hnone
    simp [removegroup, hne, hnone]
  · intro owner st gid
    constructor
    · rintro ⟨n, hn⟩
      by_cases h1 : gid = owner
      · subst h1
        simp [removegroup] at hn
      · cases hg : st.findGroup gid with
        | none => simp [removegroup, h1, hg] at hn
        | some g => exact ⟨h1, by simp [hg]⟩
    · rintro ⟨h1, h2⟩
      obtain ⟨g, hg⟩ := Option.isSome_iff_exists.mp h2
      exact ⟨g.name, by simp [removegroup, h1, hg]⟩
  · intro owner st gid g hne hsome
    constructor
    · simp [removegroup, hne, hsome]
    · have hfind : (st.groups.filter fun p => !(p.1 == gid)).find? (fun p => p.1 == gid)
          = none := by
        rw [List.find?_eq_none]
        intro x hx
        have h2 := (List.mem_filter.mp hx).2
        simp only [Bool.not_eq_true'] at h2
        simp [h2]
      have hsome' : Option.map (fun p => p.2) (st.groups.find? fun p => p.1 == gid)
          = some g := hsome
      simp only [removegroup, beq_false_of_ne hne, Bool.false_eq_true, if_false,
        BotState.findGroup, hsome', hfind, Option.map_none']

/-- A concrete two-group registry state used by the removegroup witness: the owner
control group (id 7) with one processed item, and a second group (id 8). -/
def sampleState : BotState :=
  ⟨[(7, ⟨txt "Control Group (Owner)", [], [], [], [], true⟩),
    (8, ⟨txt "G8", [], [], [], [], true⟩)], [(7, [txt "i1"])]⟩

/-- C6 witness: on the sample state, removing the owner id is rejected with the state
intact, and removing the other group succeeds. -/
theorem removegroup_witness :
    removegroup 7 sampleState 7 = (sampleState, RemoveResult.rejected_owner)
    ∧ (removegroup 7 sampleState 8).2 = RemoveResult.removed (txt "G8") :=
  ⟨removegroup_owner_protected.1 7 sampleState,
   (removegroup_owner_protected.2.2.2 7 sampleState 8 ⟨txt "G8", [], [], [], [], true⟩
     (by decide) (by decide)).1⟩

/-! ## C7: dedup idempotence and no second envelope -/

theorem process_comment_seen (g : Group) (s : List Text) (c : RComment)
    (h : s.contains c.id = true) : process_comment_for_group g s c = (s, none) := by
  have h' : c.id ∈ s := contains_true_iff.mp h
  simp [process_comment_for_group, h']

theorem search_post_seen (g : Group) (s : List Text) (p : RPost) (kw : Text) (cs : Bool)
    (h : s.contains p.id = true) : search_post_step g s p kw cs = (s, false) := by
  have h' : p.id ∈ s := contains_true_iff.mp h
  simp [search_post_step, h']

theorem process_comment_enqueued_marks (g : Group) (s : List Text) (c : RComment)
    (h : (process_comment_for_group g s c).2.isSome = true) :
    (process_comment_for_group g s c).1.contains c.id = true := by
  unfold process_comment_for_group at h ⊢
  by_cases he : (!g.enabled) = true
  · rw [if_pos he] at h
    simp at h
  · rw [if_neg he] at h ⊢
    by_cases hc : s.contains c.id = true
    · rw [if_pos hc] at h
      simp at h
    · rw [if_neg hc] at h ⊢
      by_cases hs : stream_skips_subreddit g (lowerText c.subreddit) = true
      · rw [if_pos hs] at h
        simp at h
      · rw [if_neg hs] at h ⊢
        cases hm : stream_match g c with
        | none =>
          rw [hm] at h
          simp at h
        | some kw =>
          simp only [hm]
          exact contains_set_add_self s c.id

/-- C7: marking an item id seen a second time is a no-op (so membership is
unchanged), and an item whose id is already recorded in a group's dedup index
produces no envelope and no state change through either producer path. -/
theorem markSeen_idempotent_no_second_envelope :
    (∀ s id, set_add (set_add s id) id = set_add s id)
    ∧ (∀ g s c, s.contains c.id = true → process_comment_for_group g s c = (s, none))
    ∧ (∀ g s p kw cs, s.contains p.id = true → search_post_step g s p kw cs = (s, false)) := by
  refine ⟨?_, ?_, ?_⟩
  · intro s id
    show (if (set_add s id).contains id then set_add s id else set_add s id ++ [id])
      = set_add s id
    rw [contains_set_add_self]
    rfl
  · exact process_comment_seen
  · exact search_post_seen

/-- C7 witness: a concrete group and an already-processed comment id yield no second
envelope, and the double set_add of a concrete id is a single add. -/
theorem markSeen_witness :
    process_comment_for_group ⟨txt "G", [txt "pain"], [], [], [], true⟩ [txt "c1"]
        ⟨txt "c1", txt "health", some (txt "pain")⟩ = ([txt "c1"], none)
    ∧ set_add (set_add [] (txt "c1")) (txt "c1") = set_add [] (txt "c1") :=
  ⟨markSeen_idempotent_no_second_envelope.2.1 _ _ _ (by decide),
   markSeen_idempotent_no_second_envelope.1 [] (txt "c1")⟩

/-! ## C8: throttled send retried exactly once -/

/-- C8: when the first Telegram post returns 429 carrying retry_after r, the sender
sleeps exactly r (its only sleep) and posts exactly once more; when that retry
returns 200 the call returns normally, the message having been delivered exactly
once; and the dispatcher treats the returned send as a success, removing the
envelope from the queue (no re-queue and no drop), delivering it exactly once. -/
theorem throttled_send_retried_once :
    (∀ r o, send_telegram_message ⟨429, some r⟩ ⟨200, o⟩ =
        ⟨[429, 200], [r], true⟩)
    ∧ (∀ r o, deliveries (send_telegram_message ⟨429, some r⟩ ⟨200, o⟩) = 1)
    ∧ (∀ send gid msg rest l, send gid msg = true →
        processor_step send ⟨(gid, msg) :: rest, l⟩ = ⟨rest, l ++ [(gid, msg)]⟩) := by
  refine ⟨?_, ?_, ?_⟩
  · intro r o
    simp [send_telegram_message]
  · intro r o
    simp [send_telegram_message, deliveries]
  · intro send gid msg rest l h
    simp [processor_step, h]

/-- C8 witness: retry_after 5, success on the retry; and the dispatcher dequeues a
successfully sent envelope. -/
theorem throttled_send_witness :
    send_telegram_message ⟨429, some 5⟩ ⟨200, none⟩ = ⟨[429, 200], [5], true⟩
    ∧ processor_step (fun _ _ => true) ⟨[(1, txt "m")], []⟩ = ⟨[], [(1, txt "m")]⟩ :=
  ⟨throttled_send_retried_once.1 5 none,
   throttled_send_retried_once.2.2 _ 1 (txt "m") [] [] rfl⟩

/-! ## C4: subreddit eligibility -/

/-- The spec's eligibility formula for a subreddit and a group: the allow list is
empty or contains the subreddit, and the blacklist does not contain it. -/
def eligible_subreddit (g : Group) (sr : Text) : Bool :=
  (g.subreddits.isEmpty || g.subreddits.contains sr) && !(g.subreddit_blacklist.contains sr)

/-- C4: the stream path's skip test is exactly the negation of the spec's
eligibility formula; neither producer path ever enqueues an envelope for a group
whose filters reject the item's (lowercased) subreddit; an empty allow list admits
every subreddit that is not denied, and an allow list holding exactly x admits
only x. -/
theorem subreddit_eligibility :
    (∀ g sr, stream_skips_subreddit g sr = false ↔ eligible_subreddit g sr = true)
    ∧ (∀ g processed c kw, (process_comment_for_group g processed c).2 = some kw →
        eligible_subreddit g (lowerText c.subreddit) = true)
    ∧ (∀ g processed p kw cs, (search_post_step g processed p kw cs).2 = true →
        eligible_subreddit g (lowerText p.subreddit) = true)
    ∧ (∀ g sr, g.subreddits = [] →
        (eligible_subreddit g sr = true ↔ g.subreddit_blacklist.contains sr = false))
    ∧ (∀ g sr, g.subreddits = [txt "x"] → sr ≠ txt "x" →
        eligible_subreddit g sr = false) := by
  have hmain : ∀ g sr, stream_skips_subreddit g sr = false ↔ eligible_subreddit g sr = true := by
    intro g sr
    unfold stream_skips_subreddit eligible_subreddit
    cases hA : g.subreddits with
    | nil => cases hB : g.subreddit_blacklist <;> simp
    | cons a as => cases hB : g.subreddit_blacklist <;> simp <;> tauto
  refine ⟨hmain, ?_, ?_, ?_, ?_⟩
  · intro g processed c kw h
    by_cases hs : stream_skips_subreddit g (lowerText c.subreddit) = true
    · simp [process_comment_for_group, hs] at h
    · have hf : stream_skips_subreddit g (lowerText c.subreddit) = false :=
        Bool.eq_false_iff.mpr hs
      exact (hmain g _).mp hf
  · intro g processed p kw cs h
    by_cases hA : g.subreddits = [] ∨ lowerText p.subreddit ∈ g.subreddits
    · by_cases hB : lowerText p.subreddit ∈ g.subreddit_blacklist
      · have hne : g.subreddit_blacklist ≠ [] := List.ne_nil_of_mem hB
        have hcond : ¬g.subreddit_blacklist = [] ∧ lowerText p.subreddit
            ∈ g.subreddit_blacklist := ⟨hne, hB⟩
        simp [search_post_step, hcond.1, hcond.2] at h
      · simp only [eligible_subreddit, Bool.and_eq_true, Bool.or_eq_true,
          List.isEmpty_eq_true, Bool.not_eq_true', contains_true_iff, contains_false_iff]
        exact ⟨hA, hB⟩
    · push_neg at hA
      simp [search_post_step, hA.1, hA.2] at h
  · intro g sr h
    unfold eligible_subreddit
    simp [h, List.contains]
  · intro g sr h hne
    have hc : ([txt "x"] : List Text).contains sr = false :=
      contains_false_iff.mpr (by simp [hne])
    unfold eligible_subreddit
    rw [h, hc]
    rfl

/-- C4 witness: a group allowing exactly subreddit x rejects subreddit health, and
with the allow list empty a non-denied subreddit is eligible. -/
theorem subreddit_eligibility_witness :
    eligible_subreddit ⟨txt "G", [], [], [txt "x"], [], true⟩ (txt "health") = false
    ∧ (eligible_subreddit ⟨txt "G", [], [], [], [txt "spam"], true⟩ (txt "health") = true
        ↔ ([txt "spam"] : List Text).contains (txt "health") = false) :=
  ⟨subreddit_eligibility.2.2.2.2 ⟨txt "G", [], [], [txt "x"], [], true⟩ (txt "health") rfl
      (by decide),
   subreddit_eligibility.2.2.2.1 ⟨txt "G", [], [], [], [txt "spam"], true⟩ (txt "health") rfl⟩

/-! ## C5: deny versus allow lists -/

/-- No subreddit is in both a group's allow list and its blacklist. -/
def allow_deny_disjoint (g : Group) : Prop :=
  ∀ x, x ∈ g.subreddits → x ∉ g.subreddit_blacklist

/-- C5 counterexample: the allow-list add handler does not consult the blacklist.
Starting from a group whose blacklist holds x and whose allow list is empty, adding
x to the allow list leaves x simultaneously in the allow list and in the blacklist,
so the deny-wins invariant is not preserved by every registry mutation. -/
theorem add_allow_breaks_deny_invariant :
    (add_allow_one ⟨txt "G", [], [], [], [txt "x"], true⟩ (txt "x")).subreddits.contains
        (txt "x") = true
    ∧ (add_allow_one ⟨txt "G", [], [], [], [txt "x"], true⟩
        (txt "x")).subreddit_blacklist.contains (txt "x") = true := by
  constructor
  · decide
  · decide

/-- C5 (amended): adding a subreddit that is not yet denied to the blacklist removes
it from the allow list and records it in the blacklist, and the whole blacklist-add
handler preserves allow/deny disjointness; but the invariant is not preserved by
every registry mutation, because the allow-list add handler never consults the
blacklist (see the counterexample). -/
theorem add_deny_removes_from_allow :
    (∀ g s, g.subreddit_blacklist.contains s = false →
        s ∉ (add_deny_one g s).subreddits ∧ s ∈ (add_deny_one g s).subreddit_blacklist)
    ∧ (∀ g subs, allow_deny_disjoint g → allow_deny_disjoint (add_deny g subs)) := by
  have hone : ∀ g a, allow_deny_disjoint g → allow_deny_disjoint (add_deny_one g a) := by
    intro g a hd
    unfold add_deny_one
    split
    · exact hd
    · next hnot =>
      intro x hx hbl
      have hbl' : x ∈ g.subreddit_blacklist ∨ x = a := mem_set_add.mp hbl
      by_cases hca : g.subreddits.contains a = true
      · simp only [hca, if_true] at hx
        have hx' := mem_set_remove.mp hx
        rcases hbl' with h | rfl
        · exact hd x hx'.1 h
        · exact hx'.2 rfl
      · simp only [hca, if_false] at hx
        rcases hbl' with h | rfl
        · exact hd x hx h
        · exact (contains_false_iff.mp (Bool.eq_false_iff.mpr hca)) hx
  refine ⟨?_, ?_⟩
  · intro g s hs
    unfold add_deny_one
    rw [hs]
    simp only [Bool.false_eq_true, if_false]
    constructor
    · by_cases hc : g.subreddits.contains s = true
      · simp only [hc, if_true]
        intro hmem
        exact (mem_set_remove.mp hmem).2 rfl
      · simp only [hc, if_false]
        exact contains_false_iff.mp (Bool.eq_false_iff.mpr hc)
    · exact mem_set_add.mpr (Or.inr rfl)
  · intro g subs hd
    induction subs generalizing g with
    | nil => exact hd
    | cons a rest ih => exact ih (add_deny_one g a) (hone g a hd)

/-- C5 witness: the amended theorem applied to a group allowing x with an empty
blacklist; adding x to deny removes it from allow and records it in deny. -/
theorem add_deny_removes_from_allow_witness :
    txt "x" ∉ (add_deny_one ⟨txt "G", [], [], [txt "x"], [], true⟩ (txt "x")).subreddits
    ∧ txt "x" ∈ (add_deny_one ⟨txt "G", [], [], [txt "x"], [], true⟩
        (txt "x")).subreddit_blacklist :=
  add_deny_removes_from_allow.1 ⟨txt "G", [], [], [txt "x"], [], true⟩ (txt "x") (by decide)

/-! ## C9: case-insensitive keywords take priority, one envelope per item -/

/-- C9: within one group the case-insensitive keyword set is scanned first and the
scan returns on its first hit, so a case-insensitive hit always preempts the
case-sensitive set; when both sets contain a matching keyword the surfaced keyword
is from the case-insensitive set; and one item yields at most one envelope per
group, since processing an item a second time (after the hit marked it processed)
enqueues nothing. -/
theorem ci_keywords_checked_first :
    (∀ g b kw, g.keywords.find? (fun k => contains_phrase b k) = some kw →
        stream_match_body g b = some kw)
    ∧ (∀ g b, (∃ kw ∈ g.keywords, contains_phrase b kw = true) →
        (∃ kw' ∈ g.case_sensitive_keywords, contains_phrase_case_sensitive b kw' = true) →
        ∃ k, stream_match_body g b = some k ∧ k ∈ g.keywords ∧ contains_phrase b k = true)
    ∧ (∀ g s c, (process_comment_for_group g s c).2.isSome = true →
        (process_comment_for_group g (process_comment_for_group g s c).1 c).2 = none) := by
  have h1 : ∀ g b kw, g.keywords.find? (fun k => contains_phrase b k) = some kw →
      stream_match_body g b = some kw := by
    intro g b kw h
    simp [stream_match_body, h]
  refine ⟨h1, ?_, ?_⟩
  · intro g b hci _
    have hsome : (g.keywords.find? fun k => contains_phrase b k).isSome = true := by
      rw [List.find?_isSome]
      obtain ⟨kw, hmem, hp⟩ := hci
      exact ⟨kw, hmem, hp⟩
    obtain ⟨k, hk⟩ := Option.isSome_iff_exists.mp hsome
    exact ⟨k, h1 g b k hk, List.mem_of_find?_eq_some hk, List.find?_some hk⟩
  · intro g s c h
    have hmark := process_comment_enqueued_marks g s c h
    rw [process_comment_seen g _ c hmark]

/-- C9 witness: a group whose case-insensitive set holds pain killer and whose
case-sensitive set holds Pain, on a body matching both: the surfaced keyword is the
case-insensitive one; and reprocessing the comment after the hit yields no second
envelope. -/
theorem ci_keywords_checked_first_witness :
    (∃ k, stream_match_body ⟨txt "G", [txt "pain killer"], [txt "Pain"], [], [], true⟩
          (txt "need a Pain killer") = some k
        ∧ k ∈ [txt "pain killer"] ∧ contains_phrase (txt "need a Pain killer") k = true)
    ∧ (process_comment_for_group ⟨txt "G", [txt "pain killer"], [txt "Pain"], [], [], true⟩
        (process_comment_for_group ⟨txt "G", [txt "pain killer"], [txt "Pain"], [], [], true⟩
          [] ⟨txt "c9", txt "health", some (txt "need a Pain killer")⟩).1
        ⟨txt "c9", txt "health", some (txt "need a Pain killer")⟩).2 = none :=
  ⟨ci_keywords_checked_first.2.1 ⟨txt "G", [txt "pain killer"], [txt "Pain"], [], [], true⟩
      (txt "need a Pain killer")
      ⟨txt "pain killer", by decide, by decide⟩
      ⟨txt "Pain", by decide, by decide⟩,
   ci_keywords_checked_first.2.2 ⟨txt "G", [txt "pain killer"], [txt "Pain"], [], [], true⟩
      [] ⟨txt "c9", txt "health", some (txt "need a Pain killer")⟩ (by decide)⟩

/-! ## C10: case-insensitive keywords are stored lowercase -/

theorem lowerChar_idem (c : Nat) : lowerChar (lowerChar c) = lowerChar c := by
  unfold lowerChar
  by_cases h : 65 ≤ c ∧ c ≤ 90
  · rw [if_pos h, if_neg (by omega : ¬(65 ≤ c + 32 ∧ c + 32 ≤ 90))]
  · rw [if_neg h, if_neg h]

theorem lowerText_idem (t : Text) : lowerText (lowerText t) = lowerText t := by
  induction t with
  | nil => rfl
  | cons a l ih =>
    simp only [lowerText, List.map_cons] at ih ⊢
    rw [lowerChar_idem]
    rw [ih]

theorem foldl_set_add_lower (ks : List Text) :
    ∀ acc : List Text, (∀ k ∈ acc, lowerText k = k) → (∀ k ∈ ks, lowerText k = k) →
    ∀ k ∈ ks.foldl set_add acc, lowerText k = k := by
  induction ks with
  | nil => exact fun acc hacc _ => hacc
  | cons a rest ih =>
    intro acc hacc hks
    refine ih (set_add acc a) ?_ (fun k hk => hks k (List.mem_cons_of_mem a hk))
    intro k hk
    rcases mem_set_add.mp hk with h | heq
    · exact hacc k h
    · subst heq
      exact hks k (List.mem_cons_self k rest)

theorem foldl_remove_subset (ks : List Text) :
    ∀ acc : List Text, ∀ k ∈ ks.foldl set_remove_if_present acc, k ∈ acc := by
  induction ks with
  | nil => exact fun acc k hk => hk
  | cons a rest ih =>
    intro acc k hk
    have hk' := ih (set_remove_if_present acc a) k hk
    unfold set_remove_if_present at hk'
    split at hk'
    · exact (mem_set_remove.mp hk').1
    · exact hk'

theorem mem_foldl_set_add (ks : List Text) :
    ∀ acc k, k ∈ ks.foldl set_add acc → k ∈ acc ∨ k ∈ ks := by
  induction ks with
  | nil => exact fun acc k hk => Or.inl hk
  | cons a rest ih =>
    intro acc k hk
    rcases ih (set_add acc a) k hk with h | h
    · rcases mem_set_add.mp h with h2 | heq
      · exact Or.inl h2
      · subst heq
        exact Or.inr (List.mem_cons_self k rest)
    · exact Or.inr (List.mem_cons_of_mem a h)

/-- C10: every keyword inserted by the case-insensitive add handlers is lowercased
first, so the case-insensitive keyword set only ever holds lowercase phrases (the
add and remove handlers both parse with the same lowercasing, preserving the
invariant), while the case-sensitive add handler stores its stripped input tokens
with their original case. -/
theorem ci_keywords_stored_lowercase :
    (∀ input kw, kw ∈ parse_keywords_ci input → lowerText kw = kw)
    ∧ (∀ g input, (∀ k ∈ g.keywords, lowerText k = k) →
        ∀ k ∈ (add_keywords_ci g input).keywords, lowerText k = k)
    ∧ (∀ g input, (∀ k ∈ g.keywords, lowerText k = k) →
        ∀ k ∈ (remove_keywords_ci g input).keywords, lowerText k = k)
    ∧ (∀ g input k, k ∈ (add_keywords_cs g input).case_sensitive_keywords →
        k ∈ g.case_sensitive_keywords ∨ k ∈ parse_keywords_cs input)
    ∧ (∀ input k, k ∈ parse_keywords_cs input →
        ∃ raw ∈ input.splitOn 44, k = stripText raw) := by
  have h1 : ∀ input kw, kw ∈ parse_keywords_ci input → lowerText kw = kw := by
    intro input kw h
    obtain ⟨a, _, hf⟩ := List.mem_filterMap.mp h
    by_cases hemp : (stripText a).isEmpty = true
    · simp [hemp] at hf
    · simp only [hemp, Bool.false_eq_true, if_false] at hf
      rw [← Option.some_inj.mp hf]
      exact lowerText_idem _
  refine ⟨h1, ?_, ?_, ?_, ?_⟩
  · intro g input hg
    exact foldl_set_add_lower _ _ hg (h1 input)
  · intro g input hg k hk
    exact hg k (foldl_remove_subset _ _ k hk)
  · intro g input k hk
    rcases mem_foldl_set_add _ _ k hk with h | h
    · exact Or.inl h
    · exact Or.inr h
  · intro input k h
    obtain ⟨a, ha, hf⟩ := List.mem_filterMap.mp h
    by_cases hemp : (stripText a).isEmpty = true
    · simp [hemp] at hf
    · simp only [hemp, Bool.false_eq_true, if_false] at hf
      exact ⟨a, ha, (Option.some_inj.mp hf).symm⟩

/-- C10 witness: parsing the operator input Pain Killer, CRYPTO for the
case-insensitive set yields only lowercase phrases, while the case-sensitive parse
of Pain Killer keeps its original case. -/
theorem ci_keywords_stored_lowercase_witness :
    lowerText (txt "pain killer") = txt "pain killer"
    ∧ (∃ raw ∈ (txt "Pain Killer").splitOn 44, txt "Pain Killer" = stripText raw) :=
  ⟨ci_keywords_stored_lowercase.1 (txt "Pain Killer, CRYPTO") (txt "pain killer") (by decide),
   ci_keywords_stored_lowercase.2.2.2.2 (txt "Pain Killer") (txt "Pain Killer") (by decide)⟩

/-! ## C2: dedup trimming -/

theorem trim_spec (high low : Nat) (enum : List Text) (h : high < enum.length)
    (hl : low ≤ high) :
    trim_processed high low enum = enum.drop (enum.length - low)
    ∧ (trim_processed high low enum).length = low
    ∧ ∀ x ∈ trim_processed high low enum, x ∈ enum := by
  have heq : trim_processed high low enum = enum.drop (enum.length - low) := by
    unfold trim_processed
    rw [if_pos h]
  refine ⟨heq, ?_, ?_⟩
  · rw [heq, List.length_drop]
    omega
  · intro x hx
    rw [heq] at hx
    exact List.mem_of_mem_drop hx

/-- C2 (amended): both trim operations keep exactly the final low-water-mark
segment of the set's enumeration order once the enumeration exceeds the high-water
mark: exactly low elements remain, every one of them previously present, and a
duplicate-free enumeration stays duplicate-free.  Which low elements survive is
determined by the enumeration order of the Python set, which is not its insertion
order, so the survivors need not be the most recently inserted ids (see the
counterexample). -/
theorem trim_keeps_last_of_enumeration :
    (∀ enum : List Text, 10000 < enum.length →
        save_data_trim enum = enum.drop (enum.length - 5000)
        ∧ (save_data_trim enum).length = 5000
        ∧ ∀ x ∈ save_data_trim enum, x ∈ enum)
    ∧ (∀ enum : List Text, 15000 < enum.length →
        trim_in_memory enum = enum.drop (enum.length - 7500)
        ∧ (trim_in_memory enum).length = 7500
        ∧ ∀ x ∈ trim_in_memory enum, x ∈ enum)
    ∧ (∀ enum : List Text, enum.Nodup → (save_data_trim enum).Nodup) := by
  refine ⟨?_, ?_, ?_⟩
  · intro enum h
    exact trim_spec 10000 5000 enum h (by omega)
  · intro enum h
    exact trim_spec 15000 7500 enum h (by omega)
  · intro enum h
    unfold save_data_trim trim_processed
    split
    · exact (List.drop_sublist _ _).nodup h
    · exact h

/-- An item id in the code-point model: the decimal value n as a one-element list,
so that distinct numbers give distinct ids. -/
def numId (n : Nat) : Text := [n]

/-- Ten thousand and one distinct ids in their chronological insertion order:
numId 0 inserted first, numId 10000 inserted last. -/
def insertedIds : List Text := (List.range 10001).map numId

/-- One possible enumeration order of the same set of ids (Python set iteration
order is hash-dependent, not insertion order): the newest id first, the rest in
insertion order. -/
def trickEnum : List Text := numId 10000 :: (List.range 10000).map numId

/-- C2 counterexample: trickEnum enumerates exactly the H+1 = 10001 inserted ids,
and the save-time trim of that enumeration keeps exactly L = 5000 ids, yet it keeps
numId 5000, which is not among the 5000 most-recently-inserted ids (those are
insertedIds.drop 5001, namely numId 5001 .. numId 10000): slicing an unordered set
enumeration does not retain the most recently inserted ids. -/
theorem trim_not_most_recent_counterexample :
    trickEnum.Perm insertedIds
    ∧ (save_data_trim trickEnum).length = 5000
    ∧ numId 5000 ∈ save_data_trim trickEnum
    ∧ numId 5000 ∉ insertedIds.drop 5001 := by
  have hins : insertedIds = (List.range 10000).map numId ++ [numId 10000] := by
    unfold insertedIds
    rw [List.range_succ, List.map_append]
    rfl
  have hlen : trickEnum.length = 10001 := by
    simp [trickEnum]
  have haux : save_data_trim trickEnum = ((List.range 10000).map numId).drop 5000 := by
    unfold save_data_trim trim_processed
    rw [if_pos (by rw [hlen]; omega), hlen]
    show trickEnum.drop 5001 = _
    unfold trickEnum
    rw [List.drop_succ_cons]
  refine ⟨?_, ?_, ?_, ?_⟩
  · rw [hins]
    exact (List.perm_append_singleton _ _).symm
  · rw [haux, List.length_drop]
    simp
  · rw [haux]
    have hlt : 5000 < ((List.range 10000).map numId).length := by simp
    rw [List.drop_eq_getElem_cons hlt]
    simp
  · intro hmem
    obtain ⟨j, hj, he⟩ := List.mem_iff_getElem.mp hmem
    simp [insertedIds, numId] at he
    omega

/-- C2 witness: the amended theorem applied to the concrete enumeration trickEnum,
whose length 10001 exceeds the high-water mark. -/
theorem trim_keeps_last_witness :
    save_data_trim trickEnum = trickEnum.drop (trickEnum.length - 5000)
    ∧ (save_data_trim trickEnum).length = 5000
    ∧ ∀ x ∈ save_data_trim trickEnum, x ∈ trickEnum :=
  trim_keeps_last_of_enumeration.1 trickEnum (by simp [trickEnum])

/-! ## C3: the phrase matcher versus the spec's boundary reading -/

theorem isWordChar_lowerChar (c : Nat) : isWordChar (lowerChar c) = isWordChar c := by
  unfold lowerChar isWordChar
  by_cases h : 65 ≤ c ∧ c ≤ 90
  · rw [if_pos h, Bool.eq_iff_iff]
    simp only [Bool.or_eq_true, Bool.and_eq_true, decide_eq_true_eq, beq_iff_eq]
    omega
  · rw [if_neg h]

theorem getD_lowerText (t : Text) (k : Nat) :
    (lowerText t).getD k 32 = lowerChar (t.getD k 32) := by
  rw [List.getD_eq_getElem?_getD, List.getD_eq_getElem?_getD, lowerText, List.getElem?_map]
  cases t[k]? with
  | none => simp [lowerChar]
  | some x => rfl

theorem wordEdged_lowerText (p : Text) : wordEdged (lowerText p) = wordEdged p := by
  have hlen : (lowerText p).length = p.length := List.length_map _ _
  have hemp : (lowerText p).isEmpty = p.isEmpty := by cases p <;> rfl
  unfold wordEdged
  rw [hemp, hlen, getD_lowerText, getD_lowerText, isWordChar_lowerChar, isWordChar_lowerChar]

theorem occursAt_getD {t p : Text} {i j : Nat} (hocc : occursAt t p i = true)
    (hj : j < p.length) : t.getD (i + j) 32 = p.getD j 32 := by
  have heq : (t.drop i).take p.length = p := by
    unfold occursAt at hocc
    exact eq_of_beq hocc
  calc t.getD (i + j) 32
      = (t.drop i).getD j 32 := by
        rw [List.getD_eq_getElem?_getD, List.getD_eq_getElem?_getD, List.getElem?_drop]
    _ = ((t.drop i).take p.length).getD j 32 := by
        rw [List.getD_eq_getElem?_getD, List.getD_eq_getElem?_getD,
          List.getElem?_take_of_lt hj]
    _ = p.getD j 32 := by rw [heq]

theorem wbMatchAt_eq_specDelimAt (t p : Text) (hp : wordEdged p = true) (i : Nat) :
    wbMatchAt t p i = specDelimAt t p i := by
  unfold wbMatchAt specDelimAt
  cases hocc : occursAt t p i with
  | false => simp
  | true =>
    unfold wordEdged at hp
    simp only [Bool.and_eq_true, Bool.not_eq_true'] at hp
    obtain ⟨⟨hne, h0⟩, h1⟩ := hp
    have hplen : 0 < p.length := by
      cases p
      · simp at hne
      · simp
    have hw0 : wordAt t i = true := by
      unfold wordAt
      have hx := occursAt_getD hocc hplen
      rw [Nat.add_zero] at hx
      rw [hx]
      exact h0
    have hw1 : prevWordAt t (i + p.length) = true := by
      unfold prevWordAt wordAt
      have hj : p.length - 1 < p.length := by omega
      have hx := occursAt_getD hocc hj
      have hidx : i + p.length - 1 = i + (p.length - 1) := by omega
      rw [Bool.and_eq_true]
      constructor
      · exact decide_eq_true (by omega)
      · rw [hidx, hx]
        exact h1
    unfold boundaryAt
    rw [hw0, hw1, Bool.xor_true, Bool.true_xor]

theorem wbSearch_eq_specSearch (t p : Text) (hp : wordEdged p = true) :
    wbSearch t p = specSearch t p := by
  unfold wbSearch specSearch
  rw [funext (wbMatchAt_eq_specDelimAt t p hp)]

/-- C3 (amended): for every phrase whose first and last characters are word
characters, contains_phrase agrees exactly with the spec's reading (the lowercased
phrase occurs contiguously in the lowercased text with a non-word character or text
edge on both sides); an empty text or phrase gives false in both variants; and the
case-sensitive variant rejects every text that differs from the phrase only in
letter case.  For phrases whose edge characters are non-word characters, the regex
word-boundary semantics of the code can reject occurrences that are bounded by
non-word characters (see the counterexample). -/
theorem contains_phrase_boundary_characterisation :
    (∀ t p, wordEdged p = true → contains_phrase t p = spec_contains_phrase t p)
    ∧ (∀ t p : Text, t = [] ∨ p = [] →
        contains_phrase t p = false ∧ contains_phrase_case_sensitive t p = false)
    ∧ (∀ t p : Text, lowerText t = lowerText p → t ≠ p →
        contains_phrase_case_sensitive t p = false) := by
  refine ⟨?_, ?_, ?_⟩
  · intro t p hp
    unfold contains_phrase spec_contains_phrase
    by_cases hc : (t.isEmpty || p.isEmpty) = true
    · rw [if_pos hc, if_pos hc]
    · rw [if_neg hc, if_neg hc]
      refine wbSearch_eq_specSearch _ _ ?_
      rw [wordEdged_lowerText]
      exact hp
  · intro t p h
    rcases h with rfl | rfl
    · exact ⟨rfl, rfl⟩
    · constructor <;> simp [contains_phrase, contains_phrase_case_sensitive]
  · intro t p hlow hne
    unfold contains_phrase_case_sensitive
    by_cases hc : (t.isEmpty || p.isEmpty) = true
    · rw [if_pos hc]
    · rw [if_neg hc]
      simp only [Bool.or_eq_true, not_or, Bool.not_eq_true, List.isEmpty_eq_false] at hc
      obtain ⟨ht, hp'⟩ := hc
      have hlen : t.length = p.length := by
        have hx := congrArg List.length hlow
        simpa [lowerText] using hx
      have hlen0 : 0 < t.length := List.length_pos.mpr ht
      rw [Bool.eq_false_iff]
      intro hsearch
      unfold wbSearch at hsearch
      rw [List.any_eq_true] at hsearch
      obtain ⟨i, _, hmatch⟩ := hsearch
      unfold wbMatchAt at hmatch
      simp only [Bool.and_eq_true] at hmatch
      obtain ⟨⟨hocc, _⟩, _⟩ := hmatch
      have heq : (t.drop i).take p.length = p := by
        unfold occursAt at hocc
        exact eq_of_beq hocc
      have h1 : ((t.drop i).take p.length).length = p.length := by rw [heq]
      rw [List.length_take, List.length_drop] at h1
      have hi0 : i = 0 := by
        rcases min_cases p.length (t.length - i) with ⟨hm, hord⟩ | ⟨hm, hord⟩ <;>
          rw [hm] at h1 <;> omega
      subst hi0
      rw [List.drop_zero, ← hlen, List.take_length] at heq
      exact hne heq

/-- C3 counterexample: the phrase ++ occurs in a ++ b bounded by spaces, which are
non-word characters, so the spec's reading matches, but the code's regex
word-boundary pattern finds no boundary next to a non-word edge character and
rejects the text. -/
theorem contains_phrase_boundary_counterexample :
    contains_phrase (txt "a ++ b") (txt "++") = false
    ∧ spec_contains_phrase (txt "a ++ b") (txt "++") = true := by
  constructor
  · decide
  · decide

/-- C3 witness: the amended equivalence applied to a word-edged phrase in mixed
case, and the case-sensitivity rejection applied to a text differing from the
phrase only in case. -/
theorem contains_phrase_characterisation_witness :
    contains_phrase (txt "I need a pain killer today") (txt "PAIN KILLER")
      = spec_contains_phrase (txt "I need a pain killer today") (txt "PAIN KILLER")
    ∧ contains_phrase_case_sensitive (txt "Pain") (txt "pain") = false :=
  ⟨contains_phrase_boundary_characterisation.1 (txt "I need a pain killer today")
      (txt "PAIN KILLER") (by decide),
   contains_phrase_boundary_characterisation.2.2 (txt "Pain") (txt "pain")
      (by decide) (by decide)⟩

end app
